import Mathlib

/-!
Verification of the podcast-processing orchestration core.

The definitions below are a shallow embedding of:
* `src/inngest/functions/podcast-processor.ts` — the workflow orchestrator
  (`podcastProcessor`): plan resolution, the plan-gated generation fan-out
  via `Promise.allSettled`, aggregation of per-job outcomes into
  `generatedContent` / `jobErrors`, and the top-level catch block that
  records the error and re-raises.
* `src/components/projects/compact-progress.tsx` — the progress estimator
  (`CompactProgress`): the two-phase percent computation and status label.

External effects (Convex mutations, AI generation calls, the AssemblyAI
transcription call) are modelled by an environment `Env` supplying each
step's settled outcome, and by a trace of the outbound calls the workflow
makes, in order.
-/

deriving instance DecidableEq for Except

namespace PodcastSaaS

/-- A JS string-or-absent value for `event.data.plan`. -/
abbrev EventPlan := Option String

/-- Plan resolution `const plan = (userPlan as PlanName) || "free"`: JS `||` falls through
to `"free"` exactly when `userPlan` is absent (`undefined`/`null`) or the
empty string (the only falsy string). Any other string, recognized or not,
is kept verbatim. -/
def resolvePlan : EventPlan → String
  | none => "free"
  | some s => if s = "" then "free" else s

/-- The ordered job-name list built by the fan-out section: `summary` is
always pushed; `socialPosts`, `titles`, `hashtags` when plan is pro or
ultra; `keyMoments`, `youtubeTimestamps` when plan is ultra. -/
def jobNames (plan : String) : List String :=
  ["summary"]
    ++ (if plan = "pro" ∨ plan = "ultra"
        then ["socialPosts", "titles", "hashtags"] else [])
    ++ (if plan = "ultra" then ["keyMoments", "youtubeTimestamps"] else [])

/-- The settled state of one generation job, as reported by
`Promise.allSettled`: fulfilled with a value or failed with an error
message (the code stringifies `result.reason` into a message). -/
inductive JobOutcome where
  | fulfilled (value : String)
  | failed (errorMessage : String)
deriving DecidableEq, Repr

/-- How one job's terminal result (success value or error) appears among
`Promise.allSettled`'s outcomes. -/
def settle : Except String String → JobOutcome
  | .ok v => JobOutcome.fulfilled v
  | .error e => JobOutcome.failed e

/-- The join `Promise.allSettled(jobs)`: every job's terminal result is reported,
index-aligned with the submitted array; no job's failure removes or
reorders a sibling's outcome. -/
def allSettled (jobs : List (Except String String)) : List JobOutcome :=
  jobs.map settle

/-- The `results.forEach((result, idx) => ...)` aggregation loop: a
fulfilled outcome stores its value under the job's name in
`generatedContent`, a failed outcome stores its message under the job's
name in `jobErrors`. Both maps are kept as association lists in job
order. -/
def aggregate : List (String × JobOutcome) →
    List (String × String) × List (String × String)
  | [] => ([], [])
  | (name, JobOutcome.fulfilled v) :: rest =>
      let r := aggregate rest
      ((name, v) :: r.1, r.2)
  | (name, JobOutcome.failed m) :: rest =>
      let r := aggregate rest
      (r.1, (name, m) :: r.2)

/-- One outbound call the workflow makes against the Convex backend, or
the launch of one generation job. -/
inductive Call where
  | updateProjectStatus (projectId status : String)
  | updateJobStatus (projectId field value : String)
  | runJob (name : String)
  | saveJobErrors (projectId : String) (jobErrors : List (String × String))
  | saveResults (projectId : String) (generatedContent : List (String × String))
  | recordError (projectId message stepLabel : String)
deriving DecidableEq, Repr

/-- The value returned on success: `{ success: true, projectId, plan }`. -/
structure ReturnValue where
  success : Bool
  projectId : String
  plan : String
deriving DecidableEq, Repr

/-- The settled outcome of every external effect the workflow awaits: each
durable mutation step (after the platform's retries), the transcription
step, the error-recording mutation of the catch block, and each generation
job's result as a function of its name and the transcript. -/
structure Env where
  updateStatusProcessing : Except String Unit
  updateJobStatusTranscriptionRunning : Except String Unit
  transcribeAudio : Except String String
  updateJobStatusTranscriptionCompleted : Except String Unit
  updateJobStatusGenerationRunning : Except String Unit
  jobResult : String → String → Except String String
  saveJobErrorsResult : Except String Unit
  updateJobStatusGenerationCompleted : Except String Unit
  saveResultsToConvex : Except String Unit
  recordErrorResult : Except String Unit

/-- The `try` block of `podcastProcessor`, returning the ordered call
trace together with the result: the sequential spine of status mutations,
the transcription step, the plan-gated fan-out joined by `allSettled`, the
aggregation, the conditional `save-job-errors` step, the
generation-completed mutation, and the persistence step. A spine step's
failure aborts at that point with that error; the generation jobs' own
failures never do. -/
def podcastProcessorTry (env : Env) (projectId plan : String) :
    List Call × Except String ReturnValue :=
  let t1 := [Call.updateProjectStatus projectId "processing"]
  match env.updateStatusProcessing with
  | .error e => (t1, .error e)
  | .ok _ =>
  let t2 := t1 ++ [Call.updateJobStatus projectId "transcription" "running"]
  match env.updateJobStatusTranscriptionRunning with
  | .error e => (t2, .error e)
  | .ok _ =>
  match env.transcribeAudio with
  | .error e => (t2, .error e)
  | .ok transcript =>
  let t3 := t2 ++ [Call.updateJobStatus projectId "transcription" "completed"]
  match env.updateJobStatusTranscriptionCompleted with
  | .error e => (t3, .error e)
  | .ok _ =>
  let t4 := t3 ++ [Call.updateJobStatus projectId "contentGeneration" "running"]
  match env.updateJobStatusGenerationRunning with
  | .error e => (t4, .error e)
  | .ok _ =>
  let names := jobNames plan
  let t5 := t4 ++ names.map Call.runJob
  let outcomes := allSettled (names.map fun n => env.jobResult n transcript)
  let res := aggregate (names.zip outcomes)
  let t6 := if res.2.isEmpty then t5 else t5 ++ [Call.saveJobErrors projectId res.2]
  match (if res.2.isEmpty then Except.ok () else env.saveJobErrorsResult) with
  | .error e => (t6, .error e)
  | .ok _ =>
  let t7 := t6 ++ [Call.updateJobStatus projectId "contentGeneration" "completed"]
  match env.updateJobStatusGenerationCompleted with
  | .error e => (t7, .error e)
  | .ok _ =>
  let t8 := t7 ++ [Call.saveResults projectId res.1]
  match env.saveResultsToConvex with
  | .error e => (t8, .error e)
  | .ok _ => (t8, .ok ⟨true, projectId, plan⟩)

/-- The whole `podcastProcessor` handler: resolve the plan, run the `try`
block, and on failure run the catch block — one best-effort
`recordError` mutation with step label `"workflow"`, whose own failure is
swallowed (both branches of the inner match are identical, mirroring the
inner `try { ... } catch (cleanupError) { console.error(...) }`), then
re-raise the original error. -/
def podcastProcessor (env : Env) (projectId : String) (eventPlan : EventPlan) :
    List Call × Except String ReturnValue :=
  let plan := resolvePlan eventPlan
  let res := podcastProcessorTry env projectId plan
  match res.2 with
  | .ok v => (res.1, .ok v)
  | .error e =>
    let t := res.1 ++ [Call.recordError projectId e "workflow"]
    match env.recordErrorResult with
    | .ok _ => (t, .error e)
    | .error _ => (t, .error e)

/-- All seven spine mutations settle successfully. -/
def SpineOk (env : Env) : Prop :=
  env.updateStatusProcessing = .ok () ∧
  env.updateJobStatusTranscriptionRunning = .ok () ∧
  env.updateJobStatusTranscriptionCompleted = .ok () ∧
  env.updateJobStatusGenerationRunning = .ok () ∧
  env.saveJobErrorsResult = .ok () ∧
  env.updateJobStatusGenerationCompleted = .ok () ∧
  env.saveResultsToConvex = .ok ()

instance (env : Env) : Decidable (SpineOk env) := by
  unfold SpineOk
  infer_instance

/-- The four states the `isJobState` guard of `CompactProgress` accepts;
any other stored value is normalized to `undefined` (here `none`). -/
inductive JobState where
  | pending
  | running
  | completed
  | failed
deriving DecidableEq, Repr

/-- The inputs `CompactProgress` computes from: the (guard-normalized)
`jobStatus` fields, the elapsed seconds `floor((Date.now() - createdAt) / 1000)`,
the conservative transcription-time estimate
`estimateAssemblyAITime(fileDuration).conservative`, and the configured
ceiling `PROGRESS_CAP_PERCENTAGE`. The estimate and the cap live outside
the embedded sources (`@/lib/processing-time-estimator`,
`@/lib/constants`), so they are carried as inputs here; the spec only
requires `capPercent < 100`. -/
structure ProgressInput where
  transcription : Option JobState
  contentGeneration : Option JobState
  keyMoments : Option JobState
  summary : Option JobState
  socialPosts : Option JobState
  titles : Option JobState
  hashtags : Option JobState
  youtubeTimestamps : Option JobState
  elapsedSeconds : ℚ
  conservativeEstimate : ℚ
  capPercent : ℚ
deriving DecidableEq

/-- The `stepStatuses` array: exactly these six fields, in this order,
whether or not each has a defined status. -/
def stepStatuses (i : ProgressInput) : List (Option JobState) :=
  [i.keyMoments, i.summary, i.socialPosts, i.titles, i.hashtags,
   i.youtubeTimestamps]

/-- Test `s === "completed"` on a guard-normalized status. -/
def isCompletedState : Option JobState → Bool
  | some JobState.completed => true
  | _ => false

/-- Test `s === "failed"` on a guard-normalized status. -/
def isFailedState : Option JobState → Bool
  | some JobState.failed => true
  | _ => false

/-- Count `completedSteps = stepStatuses.filter(s => s === "completed").length`. -/
def completedSteps (i : ProgressInput) : Nat :=
  ((stepStatuses i).filter isCompletedState).length

/-- Count `totalSteps = stepStatuses.length` — the length of the six-element
array, independent of how many entries are defined. -/
def totalSteps (i : ProgressInput) : Nat :=
  (stepStatuses i).length

/-- Flag `anyFailed`: transcription failed, or contentGeneration failed, or
some step status is failed. -/
def anyFailed (i : ProgressInput) : Bool :=
  isFailedState i.transcription || isFailedState i.contentGeneration ||
    (stepStatuses i).any isFailedState

/-- Flag `isTranscribing = transcriptionStatus === "running"`. -/
def isTranscribing (i : ProgressInput) : Bool :=
  i.transcription = some JobState.running

/-- Flag `isTranscribed = transcriptionStatus === "completed"`. -/
def isTranscribed (i : ProgressInput) : Bool :=
  i.transcription = some JobState.completed

/-- Flag `isGenerated = totalSteps > 0 && completedSteps === totalSteps`. -/
def isGenerated (i : ProgressInput) : Bool :=
  decide (0 < totalSteps i) && decide (completedSteps i = totalSteps i)

/-- Phase 1 of the percent computation (transcription running):
`raw = (elapsed / estimate.conservative) * 100`,
`capped = min(PROGRESS_CAP_PERCENTAGE, raw)`,
`phase1 = min(50, (capped / PROGRESS_CAP_PERCENTAGE) * 50)`. -/
def phase1 (i : ProgressInput) : ℚ :=
  let raw := i.elapsedSeconds / i.conservativeEstimate * 100
  let capped := min i.capPercent raw
  min 50 (capped / i.capPercent * 50)

/-- The percent set by the `useEffect` of `CompactProgress`, as a pure
function of the inputs and of the previously displayed percent `prev`
(only the failure branch reads `prev`, via `setProgress(p => min(p, 95))`):
failure freezes at `min(prev, 95)`; transcribed-and-generated gives 100;
transcription running gives the time-based phase-1 value; transcription
completed gives `50 + (completedSteps / totalSteps) * 50`; otherwise the
early placeholder 10. -/
def computeProgress (i : ProgressInput) (prev : ℚ) : ℚ :=
  if anyFailed i then min prev 95
  else if isTranscribed i && isGenerated i then 100
  else if isTranscribing i then phase1 i
  else if isTranscribed i then
    50 + ((completedSteps i : ℚ) / (totalSteps i : ℚ)) * 50
  else 10

/-- The `statusText` label of `CompactProgress`. -/
def statusText (i : ProgressInput) : String :=
  if anyFailed i then "⚠️ Failed"
  else if isTranscribing i then "🎙️ Transcribing..."
  else if isTranscribed i && !isGenerated i then "✨ Generating content..."
  else if isTranscribed i && isGenerated i then "✅ Complete"
  else "⏳ Processing..."

/-- How far the transcription flag has advanced along
pending → running → completed; used to phrase "status flags evolving
forward" for the monotonicity property. -/
def transRank : Option JobState → Nat
  | some JobState.completed => 2
  | some JobState.running => 1
  | _ => 0

/-- Recognizes the launch of a generation job in a call trace. -/
def isRunJob : Call → Bool
  | Call.runJob _ => true
  | _ => false

/-- Recognizes an error-recording mutation in a call trace. -/
def isRecordError : Call → Bool
  | Call.recordError _ _ _ => true
  | _ => false

/-- The fan-out aggregation result of one run: `generatedContent` and
`jobErrors` as produced from the plan's job list and the per-job settled
outcomes. -/
def fanOutResult (env : Env) (plan tr : String) :
    List (String × String) × List (String × String) :=
  aggregate ((jobNames plan).zip
    (allSettled ((jobNames plan).map fun n => env.jobResult n tr)))

/-- The call trace of a run whose spine mutations and transcription all
succeed, spelled out. -/
def successTrace (env : Env) (pid plan tr : String) : List Call :=
  [Call.updateProjectStatus pid "processing",
   Call.updateJobStatus pid "transcription" "running",
   Call.updateJobStatus pid "transcription" "completed",
   Call.updateJobStatus pid "contentGeneration" "running"] ++
  (jobNames plan).map Call.runJob ++
  (if (fanOutResult env plan tr).2.isEmpty then []
   else [Call.saveJobErrors pid (fanOutResult env plan tr).2]) ++
  [Call.updateJobStatus pid "contentGeneration" "completed",
   Call.saveResults pid (fanOutResult env plan tr).1]

theorem jobNames_nodup (plan : String) : (jobNames plan).Nodup := by
  by_cases hu : plan = "ultra"
  · subst hu; decide
  · by_cases hp : plan = "pro"
    · subst hp; decide
    · simp [jobNames, hu, hp]

theorem jobNames_eq_single (plan : String) (hp : plan ≠ "pro")
    (hu : plan ≠ "ultra") : jobNames plan = ["summary"] := by
  simp [jobNames, hp, hu]

theorem zip_allSettled (names : List String) (g : String → Except String String) :
    names.zip (allSettled (names.map g)) = names.map fun n => (n, settle (g n)) := by
  induction names with
  | nil => rfl
  | cons a as ih => simp only [List.map_cons, allSettled, List.zip_cons_cons] at ih ⊢; rw [ih]

theorem aggregate_err_mem (names : List String) (q : String → JobOutcome)
    (n m : String) (hn : n ∈ names) (hq : q n = JobOutcome.failed m) :
    (n, m) ∈ (aggregate (names.map fun j => (j, q j))).2 := by
  induction names with
  | nil => simp at hn
  | cons a as ih =>
    rcases List.mem_cons.mp hn with h | h
    · subst h
      rw [List.map_cons, hq]
      simp [aggregate]
    · cases hqa : q a with
      | fulfilled v => simpa [aggregate, hqa] using ih h
      | failed mm =>
        rw [List.map_cons, hqa]
        exact List.mem_cons_of_mem _ (ih h)

theorem aggregate_key_count (pairs : List (String × JobOutcome)) (n : String) :
    ((aggregate pairs).1.map Prod.fst).count n +
      ((aggregate pairs).2.map Prod.fst).count n
      = (pairs.map Prod.fst).count n := by
  induction pairs with
  | nil => rfl
  | cons p rest ih =>
    obtain ⟨name, o⟩ := p
    cases o with
    | fulfilled v => simp [aggregate, List.count_cons]; omega
    | failed m => simp [aggregate, List.count_cons]; omega

/-- C2: the fan-out join returns exactly N outcomes, index-aligned with
the submission order: position i of the output is the settled outcome
(fulfilled or failed) of job i, so no outcome is missing and no job's
failure removes a sibling's outcome. -/
theorem fanout_outcomes_index_aligned (jobs : List (Except String String)) :
    (allSettled jobs).length = jobs.length ∧
    ∀ i : Nat, (allSettled jobs)[i]? = (jobs[i]?).map settle := by
  constructor
  · simp [allSettled]
  · intro i
    simp [allSettled]

/-- C4: the job-selection policy maps free to exactly {summary}, pro to
exactly {summary, socialPosts, titles, hashtags}, ultra to exactly those
plus {keyMoments, youtubeTimestamps}; the selections are nested
free ⊆ pro ⊆ ultra and summary is selected for every plan. -/
theorem plan_policy_selection :
    jobNames "free" = ["summary"] ∧
    jobNames "pro" = ["summary", "socialPosts", "titles", "hashtags"] ∧
    jobNames "ultra" = ["summary", "socialPosts", "titles", "hashtags",
      "keyMoments", "youtubeTimestamps"] ∧
    jobNames "free" ⊆ jobNames "pro" ∧
    jobNames "pro" ⊆ jobNames "ultra" ∧
    ∀ plan : String, "summary" ∈ jobNames plan := by
  refine ⟨by decide, by decide, by decide, ?_, ?_, ?_⟩
  · intro a ha
    fin_cases ha
    decide
  · intro a ha
    fin_cases ha <;> decide
  · intro plan
    simp [jobNames]

theorem run_success_eq (env : Env) (pid plan tr : String)
    (hs : SpineOk env) (ht : env.transcribeAudio = Except.ok tr) :
    podcastProcessorTry env pid plan =
      (successTrace env pid plan tr, Except.ok ⟨true, pid, plan⟩) := by
  obtain ⟨h1, h2, h3, h4, h5, h6, h7⟩ := hs
  simp only [podcastProcessorTry, h1, h2, h3, h4, h5, h6, h7, ht, ite_self,
    successTrace, fanOutResult]
  split_ifs <;> simp [List.append_assoc]

theorem podcastProcessor_success_eq (env : Env) (pid : String) (p : EventPlan)
    (tr : String) (hs : SpineOk env) (ht : env.transcribeAudio = Except.ok tr) :
    podcastProcessor env pid p =
      (successTrace env pid (resolvePlan p) tr,
       Except.ok ⟨true, pid, resolvePlan p⟩) := by
  simp only [podcastProcessor, run_success_eq env pid (resolvePlan p) tr hs ht]

theorem run_transfail_eq (env : Env) (pid plan e : String)
    (h1 : env.updateStatusProcessing = Except.ok ())
    (h2 : env.updateJobStatusTranscriptionRunning = Except.ok ())
    (ht : env.transcribeAudio = Except.error e) :
    podcastProcessorTry env pid plan =
      ([Call.updateProjectStatus pid "processing",
        Call.updateJobStatus pid "transcription" "running"],
       Except.error e) := by
  simp [podcastProcessorTry, h1, h2, ht]

theorem catch_eq (env : Env) (pid : String) (p : EventPlan) (t : List Call)
    (e : String)
    (h : podcastProcessorTry env pid (resolvePlan p) = (t, Except.error e)) :
    podcastProcessor env pid p =
      (t ++ [Call.recordError pid e "workflow"], Except.error e) := by
  simp only [podcastProcessor, h]
  cases env.recordErrorResult <;> rfl

/-- Recognizes a `contentGeneration` job-status mutation in a call trace. -/
def isGenerationStatusUpdate : Call → Bool
  | Call.updateJobStatus _ "contentGeneration" _ => true
  | _ => false

/-- C1: for every plan and every mix of per-job success/failure in the
generation fan-out, the generation step never raises: with the spine
mutations and transcription succeeding, the run returns success for any
per-job outcome assignment, the generation-completed status mutation and
the persistence call both appear in the trace, and every failed job's
message lands in `jobErrors` instead of aborting the run. -/
theorem generation_fanout_never_aborts (env : Env) (pid : String) (p : EventPlan)
    (tr : String) (hs : SpineOk env) (ht : env.transcribeAudio = Except.ok tr) :
    (podcastProcessor env pid p).2 = Except.ok ⟨true, pid, resolvePlan p⟩ ∧
    Call.updateJobStatus pid "contentGeneration" "completed" ∈
      (podcastProcessor env pid p).1 ∧
    Call.saveResults pid (fanOutResult env (resolvePlan p) tr).1 ∈
      (podcastProcessor env pid p).1 ∧
    ∀ n m : String, n ∈ jobNames (resolvePlan p) →
      env.jobResult n tr = Except.error m →
      (n, m) ∈ (fanOutResult env (resolvePlan p) tr).2 := by
  rw [podcastProcessor_success_eq env pid p tr hs ht]
  refine ⟨rfl, ?_, ?_, ?_⟩
  · simp [successTrace]
  · simp [successTrace]
  · intro n m hn hm
    have hzip : fanOutResult env (resolvePlan p) tr =
        aggregate ((jobNames (resolvePlan p)).map
          fun j => (j, settle (env.jobResult j tr))) := by
      rw [fanOutResult, zip_allSettled]
    rw [hzip]
    refine aggregate_err_mem _ _ n m hn ?_
    show settle (env.jobResult n tr) = JobOutcome.failed m
    rw [hm]
    rfl

/-- Scenario B environment: plan pro, transcription succeeds, the titles
job fails, the other jobs succeed. -/
def envScenarioB : Env :=
  ⟨Except.ok (), Except.ok (), Except.ok "T", Except.ok (), Except.ok (),
   fun n _ => if n = "titles" then Except.error "titles failed"
              else Except.ok ("out-" ++ n),
   Except.ok (), Except.ok (), Except.ok (), Except.ok ()⟩

theorem generation_fanout_never_aborts_witness :
    SpineOk envScenarioB ∧
    (podcastProcessor envScenarioB "pB" (some "pro")).2 =
      Except.ok ⟨true, "pB", "pro"⟩ ∧
    (fanOutResult envScenarioB "pro" "T").2 = [("titles", "titles failed")] ∧
    (fanOutResult envScenarioB "pro" "T").1 =
      [("summary", "out-summary"), ("socialPosts", "out-socialPosts"),
       ("hashtags", "out-hashtags")] := by
  have h := generation_fanout_never_aborts envScenarioB "pB" (some "pro") "T"
    (by decide) rfl
  exact ⟨by decide, h.1, by decide, by decide⟩

/-- C5: when the transcription step fails (the preceding status mutations
having succeeded), the run terminates with that error before the fan-out:
no generation job is launched, no `contentGeneration` status mutation is
issued, and the error-recording mutation appears exactly once, with step
label "workflow". -/
theorem transcription_failure_aborts_run (env : Env) (pid : String)
    (p : EventPlan) (e : String)
    (h1 : env.updateStatusProcessing = Except.ok ())
    (h2 : env.updateJobStatusTranscriptionRunning = Except.ok ())
    (ht : env.transcribeAudio = Except.error e) :
    (podcastProcessor env pid p).2 = Except.error e ∧
    (podcastProcessor env pid p).1.filter isRunJob = [] ∧
    (podcastProcessor env pid p).1.filter isGenerationStatusUpdate = [] ∧
    (podcastProcessor env pid p).1.filter isRecordError =
      [Call.recordError pid e "workflow"] := by
  rw [catch_eq env pid p _ e (run_transfail_eq env pid (resolvePlan p) e h1 h2 ht)]
  exact ⟨rfl, rfl, rfl, rfl⟩

/-- Scenario C environment: transcription fails after retry exhaustion. -/
def envScenarioC : Env :=
  ⟨Except.ok (), Except.ok (), Except.error "assemblyai timeout", Except.ok (),
   Except.ok (), fun _ _ => Except.ok "v", Except.ok (), Except.ok (),
   Except.ok (), Except.ok ()⟩

theorem transcription_failure_aborts_run_witness :
    envScenarioC.transcribeAudio = Except.error "assemblyai timeout" ∧
    (podcastProcessor envScenarioC "pC" (some "ultra")).2 =
      Except.error "assemblyai timeout" ∧
    (podcastProcessor envScenarioC "pC" (some "ultra")).1.filter isRunJob = [] ∧
    (podcastProcessor envScenarioC "pC" (some "ultra")).1.filter isRecordError =
      [Call.recordError "pC" "assemblyai timeout" "workflow"] := by
  have h := transcription_failure_aborts_run envScenarioC "pC" (some "ultra")
    "assemblyai timeout" rfl rfl rfl
  exact ⟨rfl, h.1, h.2.1, h.2.2.2⟩

/-- C6: whenever the try block fails with some error, the handler appends
exactly one best-effort error-recording call and the returned failure is
the original error — for every environment, hence in particular when the
recording mutation itself fails, whose outcome the handler swallows. -/
theorem original_error_always_reraised (env : Env) (pid : String) (p : EventPlan)
    (e : String)
    (h : (podcastProcessorTry env pid (resolvePlan p)).2 = Except.error e) :
    (podcastProcessor env pid p).2 = Except.error e ∧
    (podcastProcessor env pid p).1 =
      (podcastProcessorTry env pid (resolvePlan p)).1 ++
        [Call.recordError pid e "workflow"] := by
  have hpair : podcastProcessorTry env pid (resolvePlan p) =
      ((podcastProcessorTry env pid (resolvePlan p)).1, Except.error e) := by
    rw [← h]
  rw [catch_eq env pid p _ e hpair]
  exact ⟨rfl, rfl⟩

/-- Environment whose very first spine mutation fails and whose
error-recording mutation also fails. -/
def envRecordFails : Env :=
  ⟨Except.error "convex down", Except.ok (), Except.ok "T", Except.ok (),
   Except.ok (), fun _ _ => Except.ok "v", Except.ok (), Except.ok (),
   Except.ok (), Except.error "record failed"⟩

theorem original_error_always_reraised_witness :
    (podcastProcessorTry envRecordFails "p6" (resolvePlan (some "pro"))).2 =
      Except.error "convex down" ∧
    envRecordFails.recordErrorResult = Except.error "record failed" ∧
    (podcastProcessor envRecordFails "p6" (some "pro")).2 =
      Except.error "convex down" := by
  have h := original_error_always_reraised envRecordFails "p6" (some "pro")
    "convex down" rfl
  exact ⟨rfl, rfl, h.1⟩

/-- C9: a trigger whose plan string is not one of the recognized tiers is
kept by plan resolution, selects exactly the free tier's single summary
job, and the run still completes successfully (given the external steps
succeed): fail-closed rather than raising. -/
theorem unknown_plan_fails_closed (env : Env) (pid s tr : String)
    (hs : SpineOk env) (ht : env.transcribeAudio = Except.ok tr)
    (hp : s ≠ "pro") (hu : s ≠ "ultra") :
    (podcastProcessor env pid (some s)).2 =
      Except.ok ⟨true, pid, resolvePlan (some s)⟩ ∧
    jobNames (resolvePlan (some s)) = jobNames "free" ∧
    (podcastProcessor env pid (some s)).1.filter isRunJob =
      [Call.runJob "summary"] := by
  have hplan : jobNames (resolvePlan (some s)) = ["summary"] := by
    by_cases h0 : s = ""
    · subst h0
      decide
    · simp only [resolvePlan, if_neg h0]
      exact jobNames_eq_single s hp hu
  rw [podcastProcessor_success_eq env pid (some s) tr hs ht]
  refine ⟨rfl, by rw [hplan]; decide, ?_⟩
  simp [successTrace, hplan, isRunJob, List.filter_append,
    apply_ite (List.filter isRunJob)]

/-- Environment for the unknown-plan scenario: everything succeeds. -/
def envUnknownPlan : Env :=
  ⟨Except.ok (), Except.ok (), Except.ok "T", Except.ok (), Except.ok (),
   fun n _ => Except.ok ("out-" ++ n), Except.ok (), Except.ok (),
   Except.ok (), Except.ok ()⟩

theorem unknown_plan_fails_closed_witness :
    (podcastProcessor envUnknownPlan "p9" (some "enterprise")).2 =
      Except.ok ⟨true, "p9", "enterprise"⟩ ∧
    (podcastProcessor envUnknownPlan "p9" (some "enterprise")).1.filter isRunJob =
      [Call.runJob "summary"] := by
  have h := unknown_plan_fails_closed envUnknownPlan "p9" "enterprise" "T"
    (by decide) rfl (by decide) (by decide)
  exact ⟨h.1, h.2.2⟩

/-- C10: on a successful run the returned plan field is the raw event
plan string whenever that string is non-empty — even when unrecognized —
and is "free" exactly when the event plan is absent or the empty
string. -/
theorem plan_echoed_verbatim (env : Env) (pid s tr : String)
    (hs : SpineOk env) (ht : env.transcribeAudio = Except.ok tr)
    (hne : s ≠ "") :
    (podcastProcessor env pid (some s)).2 = Except.ok ⟨true, pid, s⟩ ∧
    (podcastProcessor env pid none).2 = Except.ok ⟨true, pid, "free"⟩ ∧
    (podcastProcessor env pid (some "")).2 =
      Except.ok ⟨true, pid, "free"⟩ := by
  refine ⟨?_, ?_, ?_⟩
  · rw [podcastProcessor_success_eq env pid (some s) tr hs ht]
    simp [resolvePlan, hne]
  · rw [podcastProcessor_success_eq env pid none tr hs ht]
    rfl
  · rw [podcastProcessor_success_eq env pid (some "") tr hs ht]
    rfl

/-- Environment for the plan-echo scenario: everything succeeds. -/
def envEcho : Env :=
  ⟨Except.ok (), Except.ok (), Except.ok "T", Except.ok (), Except.ok (),
   fun n _ => Except.ok ("out-" ++ n), Except.ok (), Except.ok (),
   Except.ok (), Except.ok ()⟩

theorem plan_echoed_verbatim_witness :
    ("enterprise" : String) ≠ "" ∧
    (podcastProcessor envEcho "p10" (some "enterprise")).2 =
      Except.ok ⟨true, "p10", "enterprise"⟩ ∧
    (podcastProcessor envEcho "p10" none).2 =
      Except.ok ⟨true, "p10", "free"⟩ := by
  have h := plan_echoed_verbatim envEcho "p10" "enterprise" "T" (by decide) rfl
    (by decide)
  exact ⟨by decide, h.1, h.2.1⟩

/-- C3: after the fan-out aggregation, each job name selected for the
plan appears as a key exactly once across `generatedContent` and
`jobErrors` combined, and appears in exactly one of the two maps — never
in both, never in neither. Quantified over an arbitrary per-job settled
outcome assignment `g`. -/
theorem job_partition_exactly_once (plan : String)
    (g : String → Except String String) (n : String)
    (hn : n ∈ jobNames plan) :
    ((aggregate ((jobNames plan).zip
        (allSettled ((jobNames plan).map g)))).1.map Prod.fst).count n +
      ((aggregate ((jobNames plan).zip
        (allSettled ((jobNames plan).map g)))).2.map Prod.fst).count n = 1 ∧
    Xor' (n ∈ (aggregate ((jobNames plan).zip
        (allSettled ((jobNames plan).map g)))).1.map Prod.fst)
      (n ∈ (aggregate ((jobNames plan).zip
        (allSettled ((jobNames plan).map g)))).2.map Prod.fst) := by
  rw [zip_allSettled]
  have hcount := aggregate_key_count
    ((jobNames plan).map fun j => (j, settle (g j))) n
  have hfst : (((jobNames plan).map fun j => (j, settle (g j))).map Prod.fst)
      = jobNames plan := by
    simp [Function.comp_def]
  rw [hfst] at hcount
  have h1 : (jobNames plan).count n = 1 :=
    List.count_eq_one_of_mem (jobNames_nodup plan) hn
  rw [h1] at hcount
  refine ⟨hcount, ?_⟩
  rcases (by omega :
      (((aggregate ((jobNames plan).map fun j => (j, settle (g j)))).1.map
          Prod.fst).count n = 1 ∧
        ((aggregate ((jobNames plan).map fun j => (j, settle (g j)))).2.map
          Prod.fst).count n = 0) ∨
      (((aggregate ((jobNames plan).map fun j => (j, settle (g j)))).1.map
          Prod.fst).count n = 0 ∧
        ((aggregate ((jobNames plan).map fun j => (j, settle (g j)))).2.map
          Prod.fst).count n = 1)) with ⟨ha, hb⟩ | ⟨ha, hb⟩
  · exact Or.inl ⟨List.count_pos_iff.mp (by omega),
      List.count_eq_zero.mp hb⟩
  · exact Or.inr ⟨List.count_pos_iff.mp (by omega),
      List.count_eq_zero.mp ha⟩

/-- Outcome assignment for the C3 witness: the titles job fails, every
other job succeeds. -/
def partitionOutcome (j : String) : Except String String :=
  if j = "titles" then Except.error "boom" else Except.ok ("out-" ++ j)

theorem job_partition_exactly_once_witness :
    ("titles" : String) ∈ jobNames "pro" ∧
    (((aggregate ((jobNames "pro").zip
        (allSettled ((jobNames "pro").map partitionOutcome)))).1.map
          Prod.fst).count "titles" +
      ((aggregate ((jobNames "pro").zip
        (allSettled ((jobNames "pro").map partitionOutcome)))).2.map
          Prod.fst).count "titles" = 1 ∧
      Xor' (("titles" : String) ∈ (aggregate ((jobNames "pro").zip
        (allSettled ((jobNames "pro").map partitionOutcome)))).1.map Prod.fst)
        (("titles" : String) ∈ (aggregate ((jobNames "pro").zip
        (allSettled ((jobNames "pro").map partitionOutcome)))).2.map
          Prod.fst)) :=
  ⟨by decide,
   job_partition_exactly_once "pro" partitionOutcome "titles" (by decide)⟩

theorem totalSteps_eq_six (i : ProgressInput) : totalSteps i = 6 := rfl

theorem completedSteps_le_six (i : ProgressInput) : completedSteps i ≤ 6 :=
  List.length_filter_le isCompletedState (stepStatuses i)

theorem isGenerated_iff (i : ProgressInput) :
    isGenerated i = true ↔ completedSteps i = 6 := by
  simp [isGenerated, totalSteps_eq_six]

theorem computeProgress_running (i : ProgressInput) (prev : ℚ)
    (hf : anyFailed i = false)
    (hr : i.transcription = some JobState.running) :
    computeProgress i prev = phase1 i := by
  simp [computeProgress, hf, isTranscribed, isTranscribing, hr]

theorem computeProgress_genPhase (i : ProgressInput) (prev : ℚ)
    (hf : anyFailed i = false)
    (hcpl : i.transcription = some JobState.completed)
    (hng : completedSteps i ≠ 6) :
    computeProgress i prev = 50 + ((completedSteps i : ℚ) / 6) * 50 := by
  have hg : isGenerated i = false := by
    rw [← Bool.not_eq_true, isGenerated_iff]
    exact hng
  simp [computeProgress, hf, isTranscribed, isTranscribing, hcpl, hg,
    totalSteps_eq_six]

theorem computeProgress_done (i : ProgressInput) (prev : ℚ)
    (hf : anyFailed i = false)
    (hcpl : i.transcription = some JobState.completed)
    (hg6 : completedSteps i = 6) :
    computeProgress i prev = 100 := by
  have hg : isGenerated i = true := (isGenerated_iff i).mpr hg6
  simp [computeProgress, hf, isTranscribed, hcpl, hg]

theorem phase1_le_fifty (i : ProgressInput) : phase1 i ≤ 50 :=
  min_le_left _ _

theorem phase1_mono (i1 i2 : ProgressInput)
    (he : i1.elapsedSeconds ≤ i2.elapsedSeconds)
    (hest : i2.conservativeEstimate = i1.conservativeEstimate)
    (hcap : i2.capPercent = i1.capPercent)
    (hestpos : 0 < i1.conservativeEstimate)
    (hcappos : 0 < i1.capPercent) :
    phase1 i1 ≤ phase1 i2 := by
  unfold phase1
  rw [hest, hcap]
  have hraw : i1.elapsedSeconds / i1.conservativeEstimate * 100 ≤
      i2.elapsedSeconds / i1.conservativeEstimate * 100 := by
    gcongr
  have hmin : min i1.capPercent
        (i1.elapsedSeconds / i1.conservativeEstimate * 100) ≤
      min i1.capPercent
        (i2.elapsedSeconds / i1.conservativeEstimate * 100) :=
    min_le_min le_rfl hraw
  have hdiv : min i1.capPercent
        (i1.elapsedSeconds / i1.conservativeEstimate * 100) / i1.capPercent
        * 50 ≤
      min i1.capPercent
        (i2.elapsedSeconds / i1.conservativeEstimate * 100) / i1.capPercent
        * 50 := by
    gcongr
  exact min_le_min le_rfl hdiv

/-- C7 counterexample input: transcription completed, four of the six
step fields carry a defined status, two of them completed, none failed. -/
def phase2Example : ProgressInput :=
  ⟨some JobState.completed, some JobState.running, none,
   some JobState.completed, some JobState.completed, some JobState.pending,
   some JobState.pending, none, 0, 100, 80⟩

/-- C7, as stated, is false on the code: with transcription completed,
no failure, four step fields defined and two of them completed, the
component divides by the fixed array length 6 — not by a tracked-step
count of 4 — and shows 200/3 ≈ 66.7, not the claimed 75. -/
theorem progress_phase2_counterexample :
    isTranscribed phase2Example = true ∧
    anyFailed phase2Example = false ∧
    ((stepStatuses phase2Example).countP Option.isSome) = 4 ∧
    completedSteps phase2Example = 2 ∧
    computeProgress phase2Example 0 = 200 / 3 ∧
    (200 / 3 : ℚ) ≠ 75 := by
  have h2 : completedSteps phase2Example = 2 := by decide
  have hcp := computeProgress_genPhase phase2Example 0 (by decide)
    rfl (by decide)
  rw [h2] at hcp
  refine ⟨by decide, by decide, by decide, h2, ?_, by norm_num⟩
  rw [hcp]
  norm_num

/-- C7 amended: when transcription is completed and nothing failed, the
percent is 50 + (completedSteps / 6) × 50 — the divisor is the fixed
length 6 of the step-status array, regardless of how many statuses are
defined — while fewer than all 6 are completed, and is 100 with the
complete label once all 6 are completed. -/
theorem progress_phase2_formula (i : ProgressInput) (prev : ℚ)
    (hf : anyFailed i = false)
    (ht : i.transcription = some JobState.completed) :
    (completedSteps i ≠ 6 →
      computeProgress i prev = 50 + ((completedSteps i : ℚ) / 6) * 50) ∧
    (completedSteps i = 6 →
      computeProgress i prev = 100 ∧ statusText i = "✅ Complete") := by
  constructor
  · intro hng
    exact computeProgress_genPhase i prev hf ht hng
  · intro hg
    refine ⟨computeProgress_done i prev hf ht hg, ?_⟩
    have hgb : isGenerated i = true := (isGenerated_iff i).mpr hg
    simp [statusText, hf, isTranscribing, isTranscribed, ht, hgb]

theorem progress_phase2_formula_witness :
    anyFailed phase2Example = false ∧
    phase2Example.transcription = some JobState.completed ∧
    computeProgress phase2Example 0 =
      50 + ((completedSteps phase2Example : ℚ) / 6) * 50 :=
  ⟨by decide, rfl,
   (progress_phase2_formula phase2Example 0 (by decide) rfl).1 (by decide)⟩

/-- First evaluation for the C8 counterexample: transcription still
pending, so the component shows the early placeholder 10. -/
def monoExample1 : ProgressInput :=
  ⟨some JobState.pending, some JobState.pending, none, none, none, none,
   none, none, 0, 100, 80⟩

/-- Second evaluation for the C8 counterexample: transcription has just
started running with zero elapsed time, so phase 1 computes 0. -/
def monoExample2 : ProgressInput :=
  ⟨some JobState.running, some JobState.pending, none, none, none, none,
   none, none, 0, 100, 80⟩

/-- C8, as stated, is false on the code: with no failure, non-decreasing
elapsed time and completed-step counts, and the transcription flag moving
forward from pending to running, the percent regresses from the
placeholder 10 to the phase-1 value 0. -/
theorem computeProgress_placeholder (i : ProgressInput) (prev : ℚ)
    (hf : anyFailed i = false)
    (hnr : i.transcription ≠ some JobState.running)
    (hnc : i.transcription ≠ some JobState.completed) :
    computeProgress i prev = 10 := by
  have h1 : isTranscribing i = false := by simp [isTranscribing, hnr]
  have h2 : isTranscribed i = false := by simp [isTranscribed, hnc]
  simp [computeProgress, hf, h1, h2]

theorem phase1_monoExample2 : phase1 monoExample2 = 0 := by
  show min 50 (min (80 : ℚ) (0 / 100 * 100) / 80 * 50) = 0
  rw [show ((0 : ℚ) / 100 * 100) = 0 by norm_num,
    min_eq_right (by norm_num : (0 : ℚ) ≤ 80)]
  rw [show ((0 : ℚ) / 80 * 50) = 0 by norm_num]
  exact min_eq_right (by norm_num)

theorem progress_monotonicity_counterexample :
    anyFailed monoExample1 = false ∧
    anyFailed monoExample2 = false ∧
    monoExample1.elapsedSeconds ≤ monoExample2.elapsedSeconds ∧
    completedSteps monoExample1 ≤ completedSteps monoExample2 ∧
    transRank monoExample1.transcription ≤
      transRank monoExample2.transcription ∧
    computeProgress monoExample1 0 = 10 ∧
    computeProgress monoExample2 (computeProgress monoExample1 0) = 0 ∧
    computeProgress monoExample2 (computeProgress monoExample1 0) <
      computeProgress monoExample1 0 := by
  have h1 : computeProgress monoExample1 0 = 10 :=
    computeProgress_placeholder monoExample1 0 (by decide) (by decide)
      (by decide)
  have h2 : computeProgress monoExample2 (computeProgress monoExample1 0) = 0 := by
    rw [computeProgress_running monoExample2 _ (by decide) rfl,
      phase1_monoExample2]
  refine ⟨by decide, by decide, le_rfl, by decide, by decide, h1, h2, ?_⟩
  rw [h2, h1]
  norm_num

/-- C8 amended: absent any failed step, the estimator is monotone across
two evaluations with non-decreasing elapsed time and completed-step
counts and a forward-moving transcription flag, provided the earlier
evaluation is already past the initial placeholder state (transcription
running or completed); from the placeholder state the first phase-1
values may be lower than the fixed placeholder 10. -/
theorem progress_monotone_after_start (i1 i2 : ProgressInput) (p1 p2 : ℚ)
    (hf1 : anyFailed i1 = false) (hf2 : anyFailed i2 = false)
    (hstart : 1 ≤ transRank i1.transcription)
    (hfwd : transRank i1.transcription ≤ transRank i2.transcription)
    (he : i1.elapsedSeconds ≤ i2.elapsedSeconds)
    (hest : i2.conservativeEstimate = i1.conservativeEstimate)
    (hcap : i2.capPercent = i1.capPercent)
    (hestpos : 0 < i1.conservativeEstimate)
    (hcappos : 0 < i1.capPercent)
    (hc : completedSteps i1 ≤ completedSteps i2) :
    computeProgress i1 p1 ≤ computeProgress i2 p2 := by
  have h62 := completedSteps_le_six i2
  have h61 := completedSteps_le_six i1
  rcases hv1 : i1.transcription with _ | (_ | _ | _ | _)
  · rw [hv1] at hstart; norm_num [transRank] at hstart
  · rw [hv1] at hstart; norm_num [transRank] at hstart
  · -- i1 transcription running
    rcases hv2 : i2.transcription with _ | (_ | _ | _ | _)
    · rw [hv1, hv2] at hfwd; norm_num [transRank] at hfwd
    · rw [hv1, hv2] at hfwd; norm_num [transRank] at hfwd
    · -- both running
      rw [computeProgress_running i1 p1 hf1 hv1,
        computeProgress_running i2 p2 hf2 hv2]
      exact phase1_mono i1 i2 he hest hcap hestpos hcappos
    · -- running then completed
      rw [computeProgress_running i1 p1 hf1 hv1]
      have h1 := phase1_le_fifty i1
      by_cases hg : completedSteps i2 = 6
      · rw [computeProgress_done i2 p2 hf2 hv2 hg]
        linarith
      · rw [computeProgress_genPhase i2 p2 hf2 hv2 hg]
        have h2 : (0 : ℚ) ≤ ((completedSteps i2 : ℚ) / 6) * 50 := by
          positivity
        linarith
    · simp [anyFailed, isFailedState, hv2] at hf2
  · -- i1 transcription completed
    rcases hv2 : i2.transcription with _ | (_ | _ | _ | _)
    · rw [hv1, hv2] at hfwd; norm_num [transRank] at hfwd
    · rw [hv1, hv2] at hfwd; norm_num [transRank] at hfwd
    · rw [hv1, hv2] at hfwd; norm_num [transRank] at hfwd
    · -- both completed
      by_cases hg1 : completedSteps i1 = 6
      · have hg2 : completedSteps i2 = 6 := le_antisymm h62 (hg1 ▸ hc)
        rw [computeProgress_done i1 p1 hf1 hv1 hg1,
          computeProgress_done i2 p2 hf2 hv2 hg2]
      · rw [computeProgress_genPhase i1 p1 hf1 hv1 hg1]
        have hcast1 : (completedSteps i1 : ℚ) ≤ 6 := by exact_mod_cast h61
        by_cases hg2 : completedSteps i2 = 6
        · rw [computeProgress_done i2 p2 hf2 hv2 hg2]
          linarith
        · rw [computeProgress_genPhase i2 p2 hf2 hv2 hg2]
          have hcast : (completedSteps i1 : ℚ) ≤ (completedSteps i2 : ℚ) := by
            exact_mod_cast hc
          linarith
    · simp [anyFailed, isFailedState, hv2] at hf2
  · simp [anyFailed, isFailedState, hv1] at hf1

/-- First evaluation for the C8 witness: transcription running, 5
seconds elapsed against a 100-second conservative estimate, cap 80. -/
def monoWitness1 : ProgressInput :=
  ⟨some JobState.running, some JobState.pending, none, none, none, none,
   none, none, 5, 100, 80⟩

/-- Second evaluation for the C8 witness: same run 10 seconds in. -/
def monoWitness2 : ProgressInput :=
  ⟨some JobState.running, some JobState.pending, none, none, none, none,
   none, none, 10, 100, 80⟩

theorem progress_monotone_after_start_witness :
    anyFailed monoWitness1 = false ∧
    1 ≤ transRank monoWitness1.transcription ∧
    computeProgress monoWitness1 0 ≤ computeProgress monoWitness2 0 :=
  ⟨by decide, by decide,
   progress_monotone_after_start monoWitness1 monoWitness2 0 0 (by decide)
     (by decide) (by decide) (by decide) (show (5 : ℚ) ≤ 10 by norm_num)
     rfl rfl (show (0 : ℚ) < 100 by norm_num)
     (show (0 : ℚ) < 80 by norm_num) (by decide)⟩

end PodcastSaaS
